import Mathlib

/-!
Verification of the serializer code generator in `serde_codegen/src/ser.rs`.

The generator consumes a description of a declared Rust type (a struct or an
enum, together with its generics and the user attributes on the container,
its variants and its fields) and emits an implementation of the `Serialize`
trait.  We embed, faithfully to the source:

* the data model handed to the generator (`Item`, `VariantData`, `Variant`,
  attribute results are `Except Error _` values mirroring the fallible
  `attr::...` accessors, which live outside this crate's `src/`);
* the shape of the emitted `serialize` body (`SerBody`, `VariantCall`) as
  produced by `serialize_item_struct`, `serialize_item_enum`,
  `serialize_variant` and `expand_derive_serialize`;
* the run-time behaviour of the emitted visitors: `seqVisit` is the `visit`
  method generated by `serialize_tuple_struct_visitor` (a `match` on
  `self.state` with one arm per field and a default arm returning
  `Ok(None)`), and `mapVisit` / `mapRun` give the `visit` method generated
  by `serialize_struct_visitor` (a `loop` around a `match` on `self.state`
  whose arms are the non-skipped fields enumerated in declaration order,
  with conditional-skip guards executing `continue`);
* the generics plumbing (the aster builder operations are modelled from the
  spec, as the aster crate is not part of this repository's sources).
-/

namespace SerdeSer

deriving instance DecidableEq for Except

/-- The `error::Error` type of the crate: a marker meaning "an error occurred
and has already been reported through the driver's diagnostics". -/
inductive Error
  | reported
deriving Repr, DecidableEq

/-- Modelled from the spec: the container attributes exposed by the external
`attr` module; `serializeName` is the wire name (declared name unless
renamed). -/
structure ContainerAttrs where
  serializeName : String
deriving Repr, DecidableEq

/-- Modelled from the spec: the variant attributes exposed by the external
`attr` module. -/
structure VariantAttrs where
  serializeName : String
deriving Repr, DecidableEq

/-- Modelled from the spec: the field attributes exposed by the external
`attr` module.  The three booleans mirror the accessors
`skip_serializing_field()`, `skip_serializing_field_if_empty()` and
`skip_serializing_field_if_none()` consulted by `serialize_struct_visitor`. -/
structure FieldAttrs where
  serializeName : String
  skipField : Bool
  skipFieldIfEmpty : Bool
  skipFieldIfNone : Bool
deriving Repr, DecidableEq

/-- A field of a struct or variant.  The only part of `ast::StructField` the
generator consults is the result of parsing its attributes (which can fail,
aborting the emission). -/
structure StructField where
  attrs : Except Error FieldAttrs
deriving Repr, DecidableEq

/-- `ast::VariantData`: the body of a struct or of an enum variant. -/
inductive VariantData
  | unit
  | tuple (fields : List StructField)
  | struct (fields : List StructField)
deriving Repr, DecidableEq

/-- An enum variant: its name, the result of parsing its attributes, and its
body. -/
structure Variant where
  name : String
  attrs : Except Error VariantAttrs
  data : VariantData
deriving Repr, DecidableEq

/-- A bound on a type parameter: a trait path or a lifetime.  (Source
lifetimes carry a leading tick which we drop in identifiers.) -/
inductive Bound
  | traitBound (path : List String)
  | lifetimeBound (name : String)
deriving Repr, DecidableEq

/-- A generic type parameter with its bound list. -/
structure TyParam where
  ident : String
  bounds : List Bound
deriving Repr, DecidableEq

/-- A lifetime parameter with the lifetimes it must outlive. -/
structure LifetimeDef where
  ident : String
  bounds : List String
deriving Repr, DecidableEq

/-- `ast::Generics`: lifetimes, type parameters and the where-clause
(predicates kept opaque). -/
structure Generics where
  lifetimes : List LifetimeDef
  tyParams : List TyParam
  whereClause : List String
deriving Repr, DecidableEq

/-- The two `ast::ItemKind` shapes the generator accepts, plus a catch-all
for every other item kind. -/
inductive ItemKind
  | Struct (vd : VariantData) (generics : Generics)
  | Enum (variants : List Variant) (generics : Generics)
  | Other
deriving Repr, DecidableEq

/-- An `ast::Item`: its identifier, the result of parsing its container
attributes, and its kind. -/
structure Item where
  ident : String
  attrs : Except Error ContainerAttrs
  node : ItemKind
deriving Repr, DecidableEq

/-- `Annotatable`: the annotated thing handed to the expander; only items
are accepted, trait items and impl items are rejected with a span error. -/
inductive Annotatable
  | item (i : Item)
  | nonItem
deriving Repr, DecidableEq

/- ======================= Generics plumbing ======================= -/

/-- The global path `::serde::ser::Serialize` used as the added bound. -/
def serializeBound : Bound := Bound.traitBound ["serde", "ser", "Serialize"]

/-- Modelled from the spec: aster's `add_ty_param_bound` builder method (the
aster crate is not under `src/`): the given bound is added to every type
parameter; lifetimes and the where-clause are untouched. -/
def add_ty_param_bound (g : Generics) (b : Bound) : Generics :=
  { g with tyParams := g.tyParams.map (fun tp => { tp with bounds := tp.bounds ++ [b] }) }

/-- Modelled from the spec: aster's `add_lifetime_bound` builder method: the
lifetime is added as a bound on every type parameter. -/
def add_lifetime_bound (g : Generics) (lt : String) : Generics :=
  { g with tyParams :=
      g.tyParams.map (fun tp => { tp with bounds := tp.bounds ++ [Bound.lifetimeBound lt] }) }

/-- Modelled from the spec: aster's `lifetime_name` builder method: a fresh
lifetime parameter is appended to the generics. -/
def lifetime_name (g : Generics) (lt : String) : Generics :=
  { g with lifetimes := g.lifetimes ++ [{ ident := lt, bounds := [] }] }

/-- Modelled from the spec: aster's `strip_bounds` builder method, used for
the visitor's use-site generics: only the type and lifetime parameters
remain; all bounds and the where-clause are dropped. -/
def strip_bounds (g : Generics) : Generics :=
  { lifetimes := g.lifetimes.map (fun l => { l with bounds := [] }),
    tyParams := g.tyParams.map (fun tp => { tp with bounds := [] }),
    whereClause := [] }

/-- The generics of the emitted impl, built in `expand_derive_serialize`:
the declaring type's generics with the `Serialize` bound added to every
type parameter. -/
def implGenerics (g : Generics) : Generics := add_ty_param_bound g serializeBound

/-- The generics of the emitted visitor struct and impl, built in
`serialize_tuple_struct_visitor` and `serialize_struct_visitor` from the
impl generics: a fresh lifetime `__a` is added as a parameter and as a
bound on every type parameter. -/
def visitorImplGenerics (g : Generics) : Generics :=
  lifetime_name (add_lifetime_bound g "__a") "__a"

/-- The visitor's generics at use sites (`Visitor $visitor_generics`),
obtained by stripping all bounds. -/
def visitorUseGenerics (g : Generics) : Generics :=
  strip_bounds (visitorImplGenerics g)

/- ======================= Emitted artifacts ======================= -/

/-- The serializer call emitted for one match arm of an enum's `serialize`
body (one arm per variant).  Each constructor records the arguments that
the generated code passes: the container wire name, the variant index, the
variant wire name, and for the visitor-based shapes the fields driven by
the constructed visitor. -/
inductive VariantCall
  | unitVariant (typeName : String) (index : Nat) (variantName : String)
  | newtypeVariant (typeName : String) (index : Nat) (variantName : String)
  | tupleVariant (typeName : String) (index : Nat) (variantName : String) (numFields : Nat)
  | structVariant (typeName : String) (index : Nat) (variantName : String)
      (fields : List FieldAttrs)
deriving Repr, DecidableEq

/-- The variant index passed to the `serialize_*_variant` call. -/
def VariantCall.index : VariantCall → Nat
  | VariantCall.unitVariant _ i _ => i
  | VariantCall.newtypeVariant _ i _ => i
  | VariantCall.tupleVariant _ i _ _ => i
  | VariantCall.structVariant _ i _ _ => i

/-- Whether the arm constructs a visitor. -/
def VariantCall.hasVisitor : VariantCall → Bool
  | VariantCall.unitVariant _ _ _ => false
  | VariantCall.newtypeVariant _ _ _ => false
  | VariantCall.tupleVariant _ _ _ _ => true
  | VariantCall.structVariant _ _ _ _ => true

/-- The emitted `serialize` body.  `unitStruct name` stands for the single
expression `serializer.serialize_unit_struct(name)`; `newtypeStruct name`
for `serializer.serialize_newtype_struct(name, &self.0)`; `tupleStruct`
and `mapStruct` for a block declaring a visitor and handing it to
`serialize_tuple_struct` / `serialize_struct`; `enumMatch` for a
`match *self` with one arm per variant. -/
inductive SerBody
  | unitStruct (name : String)
  | newtypeStruct (name : String)
  | tupleStruct (name : String) (numFields : Nat)
  | mapStruct (name : String) (fields : List FieldAttrs)
  | enumMatch (arms : List VariantCall)
deriving Repr, DecidableEq

/-- Whether the emitted body declares a visitor. -/
def SerBody.hasVisitor : SerBody → Bool
  | SerBody.unitStruct _ => false
  | SerBody.newtypeStruct _ => false
  | SerBody.tupleStruct _ _ => true
  | SerBody.mapStruct _ _ => true
  | SerBody.enumMatch arms => arms.any VariantCall.hasVisitor

/-- The item pushed to the driver: the impl of `Serialize` for the declaring
type, with its generics and its `serialize` body. -/
structure Artifact where
  ident : String
  generics : Generics
  body : SerBody
deriving Repr, DecidableEq

/- ======================= The generator ======================= -/

/-- `attr::get_struct_field_attrs`: parse the attributes of every field;
the first failure aborts. -/
def get_struct_field_attrs : List StructField → Except Error (List FieldAttrs)
  | [] => Except.ok []
  | f :: rest =>
    match f.attrs with
    | Except.error e => Except.error e
    | Except.ok a =>
      match get_struct_field_attrs rest with
      | Except.error e => Except.error e
      | Except.ok tailAttrs => Except.ok (a :: tailAttrs)

/-- `serialize_unit_struct`: the body for a unit struct. -/
def serialize_unit_struct (ca : ContainerAttrs) : Except Error SerBody :=
  Except.ok (SerBody.unitStruct ca.serializeName)

/-- `serialize_newtype_struct`: the body for a one-field tuple struct. -/
def serialize_newtype_struct (ca : ContainerAttrs) : Except Error SerBody :=
  Except.ok (SerBody.newtypeStruct ca.serializeName)

/-- `serialize_tuple_struct`: the body for an n-field tuple struct; the
visitor is generated from the field count alone (field attributes are never
consulted on this path). -/
def serialize_tuple_struct (ca : ContainerAttrs) (numFields : Nat) : Except Error SerBody :=
  Except.ok (SerBody.tupleStruct ca.serializeName numFields)

/-- `serialize_struct`: the body for a named-fields struct; generating the
map visitor parses every field's attributes and can fail. -/
def serialize_struct (ca : ContainerAttrs) (fields : List StructField) :
    Except Error SerBody :=
  match get_struct_field_attrs fields with
  | Except.error e => Except.error e
  | Except.ok attrs => Except.ok (SerBody.mapStruct ca.serializeName attrs)

/-- `serialize_item_struct`: dispatch on the struct's `VariantData` shape.
A one-field tuple is the newtype case; every other tuple (including the
empty one) builds a sequence visitor. -/
def serialize_item_struct (ca : ContainerAttrs) (vd : VariantData) :
    Except Error SerBody :=
  match vd with
  | VariantData.unit => serialize_unit_struct ca
  | VariantData.tuple fields =>
    if fields.length = 1 then serialize_newtype_struct ca
    else serialize_tuple_struct ca fields.length
  | VariantData.struct fields => serialize_struct ca fields

/-- `serialize_variant`: the match arm for one variant at the given index.
The variant's attributes are parsed first; a one-field tuple variant is the
newtype-variant case; a struct variant additionally parses its fields'
attributes. -/
def serialize_variant (typeName : String) (variantIndex : Nat) (v : Variant) :
    Except Error VariantCall :=
  match v.attrs with
  | Except.error e => Except.error e
  | Except.ok va =>
    match v.data with
    | VariantData.unit =>
      Except.ok (VariantCall.unitVariant typeName variantIndex va.serializeName)
    | VariantData.tuple fields =>
      if fields.length = 1 then
        Except.ok (VariantCall.newtypeVariant typeName variantIndex va.serializeName)
      else
        Except.ok (VariantCall.tupleVariant typeName variantIndex va.serializeName fields.length)
    | VariantData.struct fields =>
      match get_struct_field_attrs fields with
      | Except.error e => Except.error e
      | Except.ok attrs =>
        Except.ok (VariantCall.structVariant typeName variantIndex va.serializeName attrs)

/-- The arm-building loop of `serialize_item_enum`: variants are processed
in declaration order, paired with a running index; the first error aborts. -/
def serialize_variants (typeName : String) (startIndex : Nat) :
    List Variant → Except Error (List VariantCall)
  | [] => Except.ok []
  | v :: rest =>
    match serialize_variant typeName startIndex v with
    | Except.error e => Except.error e
    | Except.ok arm =>
      match serialize_variants typeName (startIndex + 1) rest with
      | Except.error e => Except.error e
      | Except.ok arms => Except.ok (arm :: arms)

/-- `serialize_item_enum`: a `match *self` whose arms are built from the
variants enumerated from index 0. -/
def serialize_item_enum (ca : ContainerAttrs) (variants : List Variant) :
    Except Error SerBody :=
  match serialize_variants ca.serializeName 0 variants with
  | Except.error e => Except.error e
  | Except.ok arms => Except.ok (SerBody.enumMatch arms)

/-- `serialize_body`: parse the container attributes, then dispatch on the
item kind.  (On any other kind the source raises an internal-bug
diagnostic and emits nothing; that path is unreachable from
`expand_derive_serialize`, which has already rejected such items; we model
it as an error, which likewise pushes nothing.) -/
def serialize_body (item : Item) : Except Error SerBody :=
  match item.attrs with
  | Except.error e => Except.error e
  | Except.ok ca =>
    match item.node with
    | ItemKind.Struct vd _ => serialize_item_struct ca vd
    | ItemKind.Enum variants _ => serialize_item_enum ca variants
    | ItemKind.Other => Except.error Error.reported

/-- The generics of an item, when it is a struct or an enum. -/
def itemGenerics : ItemKind → Option Generics
  | ItemKind.Struct _ g => some g
  | ItemKind.Enum _ g => some g
  | ItemKind.Other => none

/-- `expand_derive_serialize`: the entry point.  The returned list is the
sequence of artifacts handed to the driver's `push` callback: empty when
the annotatable is rejected or the body construction fails, otherwise the
single complete impl. -/
def expand_derive_serialize (a : Annotatable) : List Artifact :=
  match a with
  | Annotatable.nonItem => []
  | Annotatable.item item =>
    match itemGenerics item.node with
    | none => []
    | some generics =>
      match serialize_body item with
      | Except.error _ => []
      | Except.ok body => [{ ident := item.ident, generics := implGenerics generics, body := body }]

/-- Whether every attribute-parse the generator performs on this item
succeeds (container attributes always; field attributes for named-fields
structs; variant attributes for every variant, and field attributes for
struct variants). -/
def attrsOk (item : Item) : Bool :=
  item.attrs.isOk &&
    (match item.node with
     | ItemKind.Struct vd _ =>
       match vd with
       | VariantData.struct fields => fields.all (fun f => f.attrs.isOk)
       | _ => true
     | ItemKind.Enum variants _ =>
       variants.all (fun v =>
         v.attrs.isOk &&
           (match v.data with
            | VariantData.struct fields => fields.all (fun f => f.attrs.isOk)
            | _ => true))
     | ItemKind.Other => false)

/-- Whether generation succeeds for an annotatable: it must be a struct or
enum item and every consulted attribute must parse. -/
def genOk : Annotatable → Bool
  | Annotatable.item item => attrsOk item
  | Annotatable.nonItem => false

/- =============== Run-time semantics of the emitted visitors =============== -/

/-- The run-time observations the generated guards make of one field's
value: the results of `is_empty()` and `is_none()` on it at call time. -/
structure FieldVal where
  isEmpty : Bool
  isNone : Bool
deriving Repr, DecidableEq

/-- A logical field at run time: its attributes and its value's
observations. -/
abbrev FieldRt := FieldAttrs × FieldVal

/-- Whether the conditional-skip guard emitted for this field fires at run
time: `serialize_struct_visitor` emits `if (v).is_empty { continue; }` when
the field has `skip_serializing_field_if_empty`, else
`if (v).is_none { continue; }` when it has
`skip_serializing_field_if_none`, else no guard. -/
def condSkipFires (fv : FieldRt) : Bool :=
  if fv.1.skipFieldIfEmpty then fv.2.isEmpty
  else if fv.1.skipFieldIfNone then fv.2.isNone
  else false

/-- The run-time value of the summand emitted for one field in the map
visitor's `len()` expression: `0` for a `skip` field,
`if (v).is_empty { 0 } else { 1 }` for `skip_if_empty`,
`if (v).is_none { 0 } else { 1 }` for `skip_if_none`, and `1` otherwise. -/
def fieldLenExpr (f : FieldAttrs) (v : FieldVal) : Nat :=
  if f.skipField then 0
  else if f.skipFieldIfEmpty then (if v.isEmpty then 0 else 1)
  else if f.skipFieldIfNone then (if v.isNone then 0 else 1)
  else 1

/-- The run-time value of the map visitor's emitted `len()` sum: the
summands for all fields folded left with `+` from `0`. -/
def structLen (fs : List FieldRt) : Nat :=
  fs.foldl (fun sum fv => sum + fieldLenExpr fv.1 fv.2) 0

/-- The map visitor's `len()`: `Some` of the emitted sum. -/
def struct_visitor_len (fs : List FieldRt) : Option Nat := some (structLen fs)

/-- The fields that survive the arm-construction filter of
`serialize_struct_visitor`: those without `skip_serializing_field`. -/
def nonSkipFields (fs : List FieldRt) : List FieldRt :=
  fs.filter (fun fv => !fv.1.skipField)

/-- The match arms of the map visitor's `visit`: the non-skipped fields
enumerated, the enumeration index being the arm's state ordinal (the
literal pattern it matches). -/
def mapArms (fs : List FieldRt) : List (Nat × FieldRt) :=
  (nonSkipFields fs).enum

/-- First-match semantics of a Rust `match` on an integer against a list of
literal-pattern arms. -/
def matchState {α : Type} : List (Nat × α) → Nat → Option α
  | [], _ => none
  | (i, f) :: rest, s => if s = i then some f else matchState rest s

/-- The `visit` method generated by `serialize_tuple_struct_visitor` for a
tuple of `n` fields, as a state transformer: the match arm for state
`i < n` increments the state, then calls
`serializer.serialize_tuple_struct_elt(&self.value.i)` (modelled by
`ser i`), wrapping success as `Ok(Some(v))` and propagating errors via
`try!`; the default arm returns `Ok(None)` leaving the state unchanged. -/
def seqVisit (n : Nat) (ser : Nat → Except Error Unit) (state : Nat) :
    Nat × Except Error (Option Unit) :=
  if state < n then
    match ser state with
    | Except.error e => (state + 1, Except.error e)
    | Except.ok v => (state + 1, Except.ok (some v))
  else (state, Except.ok none)

/-- The sequence visitor's `len()`: `Some` of the compile-time field
count. -/
def seq_visitor_len (n : Nat) : Option Nat := some n

/-- One call of the map visitor's `visit` generated by
`serialize_struct_visitor`, iterating over the arm suffix from the current
state: the arm for state `s` increments the state, then either `continue`s
(when its conditional-skip guard fires) or returns
`Ok(Some(try!(serializer.serialize_struct_elt(key, value))))` (the
serializer call on arm `s` is modelled by `ser s`); when the state matches
no arm the default arm returns `Ok(None)`. -/
def mapVisitAux (ser : Nat → Except Error Unit) :
    List FieldRt → Nat → Nat × Except Error (Option Unit)
  | [], state => (state, Except.ok none)
  | fv :: rest, state =>
    if condSkipFires fv then mapVisitAux ser rest (state + 1)
    else
      match ser state with
      | Except.error e => (state + 1, Except.error e)
      | Except.ok v => (state + 1, Except.ok (some v))

/-- The map visitor's `visit` at state `state` over arm fields `arms`
(already filtered of `skip` fields): the loop only ever examines the arms
with ordinal at least the current state. -/
def mapVisit (arms : List FieldRt) (ser : Nat → Except Error Unit) (state : Nat) :
    Nat × Except Error (Option Unit) :=
  mapVisitAux ser (arms.drop state) state

/-- The ordinals at which an error-free drive of the map visitor starting
from the given state calls `serialize_struct_elt`, in call order (the
serializer re-invokes `visit` until it returns `Ok(None)`). -/
def mapRunAux : List FieldRt → Nat → List Nat
  | [], _ => []
  | fv :: rest, state =>
    if condSkipFires fv then mapRunAux rest (state + 1)
    else state :: mapRunAux rest (state + 1)

/-- The emitted-call ordinals of a full error-free drive from `state`. -/
def mapRun (arms : List FieldRt) (state : Nat) : List Nat :=
  mapRunAux (arms.drop state) state

/- ======================= Supporting lemmas ======================= -/

theorem matchState_enumFrom {α : Type} (A : List α) (k s : Nat) :
    matchState (A.enumFrom k) s = if k ≤ s then A[s - k]? else none := by
  induction A generalizing k with
  | nil => simp [matchState, List.enumFrom]
  | cons a rest ih =>
    simp only [List.enumFrom, matchState]
    rcases Nat.lt_trichotomy s k with hlt | heq | hgt
    · rw [if_neg (by omega), if_neg (by omega), ih]
      rw [if_neg (by omega)]
    · subst heq
      rw [if_pos rfl, if_pos (Nat.le_refl s)]
      simp
    · rw [if_neg (by omega), ih, if_pos (by omega), if_pos (by omega)]
      have hsub : s - k = (s - (k + 1)) + 1 := by omega
      rw [hsub]
      simp

/-- The generated `match` over the enumerated arms is exactly positional
lookup: matching `state` against the literal-pattern arms produced by
`.enumerate()` finds the field at position `state` of the filtered list. -/
theorem matchState_enum {α : Type} (A : List α) (s : Nat) :
    matchState A.enum s = A[s]? := by
  have h := matchState_enumFrom A 0 s
  simpa [List.enum] using h

theorem mapRun_stop (arms : List FieldRt) (s : Nat) (h : arms.length ≤ s) :
    mapRun arms s = [] := by
  unfold mapRun
  rw [List.drop_eq_nil_of_le h]
  rfl

theorem mapRun_step (arms : List FieldRt) (s : Nat) (h : s < arms.length) :
    mapRun arms s =
      if condSkipFires (arms.get ⟨s, h⟩) then mapRun arms (s + 1)
      else s :: mapRun arms (s + 1) := by
  unfold mapRun
  rw [List.drop_eq_getElem_cons h]
  rfl

theorem mapVisit_stop (arms : List FieldRt) (ser : Nat → Except Error Unit)
    (s : Nat) (h : arms.length ≤ s) : mapVisit arms ser s = (s, Except.ok none) := by
  unfold mapVisit
  rw [List.drop_eq_nil_of_le h]
  rfl

theorem mapVisit_step (arms : List FieldRt) (ser : Nat → Except Error Unit)
    (s : Nat) (h : s < arms.length) :
    mapVisit arms ser s =
      if condSkipFires (arms.get ⟨s, h⟩) then mapVisit arms ser (s + 1)
      else
        match ser s with
        | Except.error e => (s + 1, Except.error e)
        | Except.ok v => (s + 1, Except.ok (some v)) := by
  unfold mapVisit
  rw [List.drop_eq_getElem_cons h]
  rfl

theorem fieldLenExpr_of_skip (f : FieldAttrs) (v : FieldVal)
    (h : f.skipField = true) : fieldLenExpr f v = 0 := by
  unfold fieldLenExpr
  rw [h]
  rfl

theorem fieldLenExpr_of_not_skip (fv : FieldRt) (h : fv.1.skipField = false) :
    fieldLenExpr fv.1 fv.2 = if condSkipFires fv then 0 else 1 := by
  obtain ⟨f, v⟩ := fv
  unfold fieldLenExpr condSkipFires at *
  rw [h]
  by_cases hEmpty : f.skipFieldIfEmpty = true <;>
    by_cases hNone : f.skipFieldIfNone = true <;>
      simp [hEmpty, hNone]

theorem foldl_add_shift {α : Type} (c : α → Nat) (l : List α) (a : Nat) :
    l.foldl (fun sum x => sum + c x) a = a + l.foldl (fun sum x => sum + c x) 0 := by
  induction l generalizing a with
  | nil => simp
  | cons x xs ih =>
    simp only [List.foldl_cons]
    rw [ih (a + c x), ih (0 + c x)]
    omega

theorem structLen_cons (fv : FieldRt) (rest : List FieldRt) :
    structLen (fv :: rest) = fieldLenExpr fv.1 fv.2 + structLen rest := by
  unfold structLen
  simp only [List.foldl_cons]
  rw [foldl_add_shift]
  omega

theorem mapRunAux_cons_fire (fv : FieldRt) (rest : List FieldRt) (s : Nat)
    (h : condSkipFires fv = true) :
    mapRunAux (fv :: rest) s = mapRunAux rest (s + 1) := by
  simp [mapRunAux, h]

theorem mapRunAux_cons_emit (fv : FieldRt) (rest : List FieldRt) (s : Nat)
    (h : condSkipFires fv = false) :
    mapRunAux (fv :: rest) s = s :: mapRunAux rest (s + 1) := by
  simp [mapRunAux, h]

theorem mapRunAux_length (L : List FieldRt) (s : Nat) :
    (mapRunAux L s).length = (L.filter (fun fv => !condSkipFires fv)).length := by
  induction L generalizing s with
  | nil => rfl
  | cons fv rest ih =>
    by_cases h : condSkipFires fv = true
    · rw [mapRunAux_cons_fire fv rest s h]
      simp [List.filter_cons, h, ih (s + 1)]
    · have h2 : condSkipFires fv = false := by
        cases hb : condSkipFires fv
        · rfl
        · exact absurd hb h
      rw [mapRunAux_cons_emit fv rest s h2]
      simp [List.filter_cons, h2, ih (s + 1)]

theorem structLen_eq_presented (fs : List FieldRt) :
    structLen fs = ((nonSkipFields fs).filter (fun fv => !condSkipFires fv)).length := by
  induction fs with
  | nil => rfl
  | cons fv rest ih =>
    rw [structLen_cons]
    by_cases h : fv.1.skipField = true
    · rw [fieldLenExpr_of_skip fv.1 fv.2 h]
      have hfilter : nonSkipFields (fv :: rest) = nonSkipFields rest := by
        simp [nonSkipFields, List.filter_cons, h]
      rw [hfilter, ih]
      omega
    · have h2 : fv.1.skipField = false := by
        cases hb : fv.1.skipField
        · rfl
        · exact absurd hb h
      rw [fieldLenExpr_of_not_skip fv h2]
      have hfilter : nonSkipFields (fv :: rest) = fv :: nonSkipFields rest := by
        simp [nonSkipFields, List.filter_cons, h2]
      rw [hfilter]
      by_cases hc : condSkipFires fv = true
      · simp [List.filter_cons, hc, ih]
      · have hc2 : condSkipFires fv = false := by
          cases hb : condSkipFires fv
          · rfl
          · exact absurd hb hc
        simp [List.filter_cons, hc2, ih]
        omega

theorem mem_mapRunAux (L : List FieldRt) (s j : Nat) :
    j ∈ mapRunAux L s ↔
      s ≤ j ∧ ∃ fv, L[j - s]? = some fv ∧ condSkipFires fv = false := by
  induction L generalizing s with
  | nil => simp [mapRunAux]
  | cons fv rest ih =>
    by_cases h : condSkipFires fv = true
    · rw [mapRunAux_cons_fire fv rest s h, ih (s + 1)]
      constructor
      · rintro ⟨hle, fv2, hget, hfire⟩
        refine ⟨by omega, fv2, ?_, hfire⟩
        have hsub : j - s = (j - (s + 1)) + 1 := by omega
        rw [hsub, List.getElem?_cons_succ]
        exact hget
      · rintro ⟨hle, fv2, hget, hfire⟩
        rcases Nat.eq_or_lt_of_le hle with rfl | hlt
        · simp only [Nat.sub_self, List.getElem?_cons_zero, Option.some_inj] at hget
          subst hget
          rw [h] at hfire
          cases hfire
        · refine ⟨by omega, fv2, ?_, hfire⟩
          have hsub : j - s = (j - (s + 1)) + 1 := by omega
          rw [hsub, List.getElem?_cons_succ] at hget
          exact hget
    · have h2 : condSkipFires fv = false := by
        cases hb : condSkipFires fv
        · rfl
        · exact absurd hb h
      rw [mapRunAux_cons_emit fv rest s h2]
      rw [List.mem_cons, ih (s + 1)]
      constructor
      · rintro (rfl | ⟨hle, fv2, hget, hfire⟩)
        · exact ⟨Nat.le_refl j, fv, by simp, h2⟩
        · refine ⟨by omega, fv2, ?_, hfire⟩
          have hsub : j - s = (j - (s + 1)) + 1 := by omega
          rw [hsub, List.getElem?_cons_succ]
          exact hget
      · rintro ⟨hle, fv2, hget, hfire⟩
        rcases Nat.eq_or_lt_of_le hle with rfl | hlt
        · exact Or.inl rfl
        · right
          refine ⟨by omega, fv2, ?_, hfire⟩
          have hsub : j - s = (j - (s + 1)) + 1 := by omega
          rw [hsub, List.getElem?_cons_succ] at hget
          exact hget

theorem mapVisitAux_state_le (ser : Nat → Except Error Unit) (L : List FieldRt)
    (s : Nat) : s ≤ (mapVisitAux ser L s).1 := by
  induction L generalizing s with
  | nil => exact Nat.le_refl s
  | cons fv rest ih =>
    by_cases h : condSkipFires fv = true
    · have : mapVisitAux ser (fv :: rest) s = mapVisitAux ser rest (s + 1) := by
        simp [mapVisitAux, h]
      rw [this]
      exact Nat.le_trans (Nat.le_succ s) (ih (s + 1))
    · have h2 : condSkipFires fv = false := by
        cases hb : condSkipFires fv
        · rfl
        · exact absurd hb h
      show ((if condSkipFires fv then _ else _ : Nat × Except Error (Option Unit))).1 ≥ s
      rw [h2]
      simp only [Bool.false_eq_true, if_false]
      cases ser s <;> exact Nat.le_succ s

theorem mapVisitAux_ok_none_state (ser : Nat → Except Error Unit) (L : List FieldRt)
    (s s2 : Nat) (h : mapVisitAux ser L s = (s2, Except.ok none)) :
    s2 = s + L.length := by
  induction L generalizing s with
  | nil =>
    simp only [mapVisitAux, Prod.mk.injEq] at h
    simp only [List.length_nil]
    omega
  | cons fv rest ih =>
    by_cases hc : condSkipFires fv = true
    · have heq : mapVisitAux ser (fv :: rest) s = mapVisitAux ser rest (s + 1) := by
        simp [mapVisitAux, hc]
      rw [heq] at h
      have := ih (s + 1) h
      simp only [List.length_cons]
      omega
    · have hc2 : condSkipFires fv = false := by
        cases hb : condSkipFires fv
        · rfl
        · exact absurd hb hc
      have heq : mapVisitAux ser (fv :: rest) s =
          match ser s with
          | Except.error e => (s + 1, Except.error e)
          | Except.ok v => (s + 1, Except.ok (some v)) := by
        simp [mapVisitAux, hc2]
      rw [heq] at h
      cases hs : ser s <;> rw [hs] at h <;> simp at h

theorem seqVisit_state_le (n : Nat) (ser : Nat → Except Error Unit) (s : Nat) :
    s ≤ (seqVisit n ser s).1 := by
  unfold seqVisit
  by_cases h : s < n
  · rw [if_pos h]
    cases ser s <;> exact Nat.le_succ s
  · rw [if_neg h]

theorem seqVisit_ok_none (n : Nat) (ser : Nat → Except Error Unit) (s s2 : Nat)
    (h : seqVisit n ser s = (s2, Except.ok none)) : s2 = s ∧ ¬s < n := by
  unfold seqVisit at h
  by_cases hlt : s < n
  · rw [if_pos hlt] at h
    cases hs : ser s <;> rw [hs] at h <;> simp at h
  · rw [if_neg hlt] at h
    simp only [Prod.mk.injEq] at h
    exact ⟨h.1.symm, hlt⟩

/- ================ Generator success and index lemmas ================ -/

theorem serialize_variant_index (typeName : String) (i : Nat) (v : Variant)
    (c : VariantCall) (h : serialize_variant typeName i v = Except.ok c) :
    c.index = i := by
  cases hva : v.attrs with
  | error e => simp [serialize_variant, hva] at h
  | ok va =>
    cases hd : v.data with
    | unit =>
      simp only [serialize_variant, hva, hd, Except.ok.injEq] at h
      subst h
      rfl
    | tuple fields =>
      simp only [serialize_variant, hva, hd] at h
      by_cases hlen : fields.length = 1
      · rw [if_pos hlen] at h
        simp only [Except.ok.injEq] at h
        subst h
        rfl
      · rw [if_neg hlen] at h
        simp only [Except.ok.injEq] at h
        subst h
        rfl
    | struct fields =>
      simp only [serialize_variant, hva, hd] at h
      cases hfa : get_struct_field_attrs fields with
      | error e => rw [hfa] at h; cases h
      | ok attrs =>
        rw [hfa] at h
        simp only [Except.ok.injEq] at h
        subst h
        rfl

theorem serialize_variants_spec (typeName : String) (k : Nat) (vs : List Variant)
    (arms : List VariantCall) (h : serialize_variants typeName k vs = Except.ok arms) :
    arms.length = vs.length ∧
      ∀ i, i < vs.length →
        ∃ c v2, arms[i]? = some c ∧ vs[i]? = some v2 ∧
          serialize_variant typeName (k + i) v2 = Except.ok c ∧ c.index = k + i := by
  induction vs generalizing k arms with
  | nil =>
    simp only [serialize_variants, Except.ok.injEq] at h
    subst h
    exact ⟨rfl, fun i hi => absurd hi (by simp)⟩
  | cons v rest ih =>
    unfold serialize_variants at h
    cases hv : serialize_variant typeName k v with
    | error e => rw [hv] at h; cases h
    | ok arm =>
      rw [hv] at h
      cases hrest : serialize_variants typeName (k + 1) rest with
      | error e => rw [hrest] at h; cases h
      | ok restArms =>
        rw [hrest] at h
        simp only [Except.ok.injEq] at h
        subst h
        obtain ⟨hlen, hspec⟩ := ih (k + 1) restArms hrest
        refine ⟨by simp [hlen], ?_⟩
        intro i hi
        cases i with
        | zero =>
          exact ⟨arm, v, by simp, by simp, by simpa using hv,
            serialize_variant_index typeName k v arm hv⟩
        | succ i2 =>
          have hi2 : i2 < rest.length := by
            simp only [List.length_cons] at hi
            omega
          obtain ⟨c, v2, hget, hvget, hser, hidx⟩ := hspec i2 hi2
          refine ⟨c, v2, by simpa using hget, by simpa using hvget, ?_, by omega⟩
          have harith : k + (i2 + 1) = (k + 1) + i2 := by omega
          rw [harith]
          exact hser

theorem get_struct_field_attrs_isOk (fields : List StructField) :
    (get_struct_field_attrs fields).isOk = fields.all (fun f => f.attrs.isOk) := by
  induction fields with
  | nil => rfl
  | cons f rest ih =>
    simp only [get_struct_field_attrs, List.all_cons]
    cases hf : f.attrs with
    | error e => rfl
    | ok a =>
      cases hrest : get_struct_field_attrs rest with
      | error e =>
        rw [hrest] at ih
        rw [← ih]
        rfl
      | ok tailAttrs =>
        rw [hrest] at ih
        rw [← ih]
        rfl

theorem serialize_item_struct_isOk (ca : ContainerAttrs) (vd : VariantData) :
    (serialize_item_struct ca vd).isOk =
      (match vd with
       | VariantData.struct fields => fields.all (fun f => f.attrs.isOk)
       | _ => true) := by
  cases vd with
  | unit => rfl
  | tuple fields =>
    simp only [serialize_item_struct]
    by_cases hlen : fields.length = 1
    · rw [if_pos hlen]
      rfl
    · rw [if_neg hlen]
      rfl
  | struct fields =>
    simp only [serialize_item_struct, serialize_struct]
    cases hfa : get_struct_field_attrs fields with
    | error e =>
      have h := get_struct_field_attrs_isOk fields
      rw [hfa] at h
      rw [← h]
      rfl
    | ok attrs =>
      have h := get_struct_field_attrs_isOk fields
      rw [hfa] at h
      rw [← h]
      rfl

theorem serialize_variant_isOk (typeName : String) (i : Nat) (v : Variant) :
    (serialize_variant typeName i v).isOk =
      (v.attrs.isOk &&
        (match v.data with
         | VariantData.struct fields => fields.all (fun f => f.attrs.isOk)
         | _ => true)) := by
  cases hva : v.attrs with
  | error e =>
    simp only [serialize_variant, hva]
    rfl
  | ok va =>
    cases hd : v.data with
    | unit =>
      simp only [serialize_variant, hva, hd]
      rfl
    | tuple fields =>
      simp only [serialize_variant, hva, hd]
      by_cases hlen : fields.length = 1
      · rw [if_pos hlen]
        rfl
      · rw [if_neg hlen]
        rfl
    | struct fields =>
      simp only [serialize_variant, hva, hd]
      cases hfa : get_struct_field_attrs fields with
      | error e =>
        have h := get_struct_field_attrs_isOk fields
        rw [hfa] at h
        rw [← h]
        rfl
      | ok attrs =>
        have h := get_struct_field_attrs_isOk fields
        rw [hfa] at h
        rw [← h]
        rfl

theorem serialize_variants_isOk (typeName : String) (k : Nat) (vs : List Variant) :
    (serialize_variants typeName k vs).isOk =
      vs.all (fun v =>
        v.attrs.isOk &&
          (match v.data with
           | VariantData.struct fields => fields.all (fun f => f.attrs.isOk)
           | _ => true)) := by
  induction vs generalizing k with
  | nil => rfl
  | cons v rest ih =>
    simp only [serialize_variants, List.all_cons]
    cases hv : serialize_variant typeName k v with
    | error e =>
      have h := serialize_variant_isOk typeName k v
      rw [hv] at h
      rw [← h]
      rfl
    | ok arm =>
      have h := serialize_variant_isOk typeName k v
      rw [hv] at h
      rw [← h]
      cases hrest : serialize_variants typeName (k + 1) rest with
      | error e =>
        have h2 := ih (k + 1)
        rw [hrest] at h2
        rw [← h2]
        rfl
      | ok arms =>
        have h2 := ih (k + 1)
        rw [hrest] at h2
        rw [← h2]
        rfl

theorem serialize_item_enum_isOk (ca : ContainerAttrs) (variants : List Variant) :
    (serialize_item_enum ca variants).isOk =
      variants.all (fun v =>
        v.attrs.isOk &&
          (match v.data with
           | VariantData.struct fields => fields.all (fun f => f.attrs.isOk)
           | _ => true)) := by
  simp only [serialize_item_enum]
  cases hv : serialize_variants ca.serializeName 0 variants with
  | error e =>
    have h := serialize_variants_isOk ca.serializeName 0 variants
    rw [hv] at h
    rw [← h]
    rfl
  | ok arms =>
    have h := serialize_variants_isOk ca.serializeName 0 variants
    rw [hv] at h
    rw [← h]
    rfl

theorem serialize_body_isOk (item : Item) :
    (serialize_body item).isOk = attrsOk item := by
  cases hca : item.attrs with
  | error e =>
    simp only [serialize_body, attrsOk, hca]
    rfl
  | ok ca =>
    cases hn : item.node with
    | Struct vd g =>
      simp only [serialize_body, attrsOk, hca, hn]
      rw [serialize_item_struct_isOk]
      cases vd <;> rfl
    | Enum variants g =>
      simp only [serialize_body, attrsOk, hca, hn]
      rw [serialize_item_enum_isOk]
      rfl
    | Other =>
      simp only [serialize_body, attrsOk, hca, hn]
      rfl

theorem condSkipFires_of_ifEmpty (fv : FieldRt) (h : fv.1.skipFieldIfEmpty = true) :
    condSkipFires fv = fv.2.isEmpty := by
  unfold condSkipFires
  rw [h]
  simp

theorem condSkipFires_of_ifNone (fv : FieldRt) (h1 : fv.1.skipFieldIfEmpty = false)
    (h2 : fv.1.skipFieldIfNone = true) : condSkipFires fv = fv.2.isNone := by
  unfold condSkipFires
  rw [h1, h2]
  simp

theorem mem_mapRun_zero (A : List FieldRt) (i : Nat) (h : i < A.length) :
    i ∈ mapRun A 0 ↔ condSkipFires (A.get ⟨i, h⟩) = false := by
  unfold mapRun
  rw [List.drop_zero, mem_mapRunAux]
  constructor
  · rintro ⟨-, fv, hget, hfire⟩
    rw [Nat.sub_zero, List.getElem?_eq_getElem h] at hget
    simp only [Option.some_inj] at hget
    rw [← hget] at hfire
    exact hfire
  · intro hfire
    refine ⟨Nat.zero_le i, A.get ⟨i, h⟩, ?_, hfire⟩
    rw [Nat.sub_zero]
    exact List.getElem?_eq_getElem h

/- ======================= The claims ======================= -/

/-- C1: for every record type, the emitted map visitor's `len()` evaluates
to the run-time count of presented fields — the number of
`serialize_struct_elt` calls made by an error-free drive of the visitor —
and the summand emitted for each field is `0` for a `skip` field, `0` or
`1` by `is_empty()` for a `skip_if_empty` field, `0` or `1` by `is_none()`
for a `skip_if_none` field, and `1` for every other field. -/
theorem c1_map_len_counts_presented_fields (fs : List FieldRt) :
    struct_visitor_len fs = some ((mapRun (nonSkipFields fs) 0).length) ∧
    (∀ f v, f.skipField = true → fieldLenExpr f v = 0) ∧
    (∀ f v, f.skipField = false → f.skipFieldIfEmpty = true →
      fieldLenExpr f v = if v.isEmpty then 0 else 1) ∧
    (∀ f v, f.skipField = false → f.skipFieldIfEmpty = false →
      f.skipFieldIfNone = true → fieldLenExpr f v = if v.isNone then 0 else 1) ∧
    (∀ f v, f.skipField = false → f.skipFieldIfEmpty = false →
      f.skipFieldIfNone = false → fieldLenExpr f v = 1) := by
  refine ⟨?_, ?_, ?_, ?_, ?_⟩
  · unfold struct_visitor_len mapRun
    rw [List.drop_zero, mapRunAux_length, structLen_eq_presented]
  · exact fieldLenExpr_of_skip
  · intro f v h1 h2
    unfold fieldLenExpr
    rw [h1, h2]
    simp
  · intro f v h1 h2 h3
    unfold fieldLenExpr
    rw [h1, h2, h3]
    simp
  · intro f v h1 h2 h3
    unfold fieldLenExpr
    rw [h1, h2, h3]
    simp

theorem c1_witness :
    (⟨"b", true, false, false⟩ : FieldAttrs).skipField = true ∧
    fieldLenExpr ⟨"b", true, false, false⟩ ⟨false, false⟩ = 0 ∧
    struct_visitor_len
        [(⟨"a", false, false, false⟩, ⟨false, false⟩),
         (⟨"b", true, false, false⟩, ⟨false, false⟩),
         (⟨"c", false, true, false⟩, ⟨true, false⟩)] =
      some ((mapRun (nonSkipFields
        [(⟨"a", false, false, false⟩, ⟨false, false⟩),
         (⟨"b", true, false, false⟩, ⟨false, false⟩),
         (⟨"c", false, true, false⟩, ⟨true, false⟩)]) 0).length) :=
  ⟨rfl,
   (c1_map_len_counts_presented_fields []).2.1 ⟨"b", true, false, false⟩ ⟨false, false⟩ rfl,
   (c1_map_len_counts_presented_fields
     [(⟨"a", false, false, false⟩, ⟨false, false⟩),
      (⟨"b", true, false, false⟩, ⟨false, false⟩),
      (⟨"c", false, true, false⟩, ⟨true, false⟩)]).1⟩

/-- C2: in the emitted map visitor (for records and record variants alike)
a `skip` field is absent from the match arms and contributes `0` to
`len()`; the arm ordinals are assigned densely from `0` by filtered
position (matching an arm is positional lookup in the filtered field
list); a `skip_if_empty` field emits a `serialize_struct_elt` call iff its
`is_empty()` is false at call time, and a `skip_if_none` field iff its
`is_none()` is false. -/
theorem c2_map_arms_skip_semantics (fs : List FieldRt) :
    (∀ p, p ∈ mapArms fs → p.2.1.skipField = false) ∧
    ((mapArms fs).map Prod.fst = List.range (nonSkipFields fs).length) ∧
    ((mapArms fs).map Prod.snd = nonSkipFields fs) ∧
    (∀ s, matchState (mapArms fs) s = (nonSkipFields fs)[s]?) ∧
    (∀ f v, f.skipField = true → fieldLenExpr f v = 0) ∧
    (∀ i, (h : i < (nonSkipFields fs).length) →
      ((nonSkipFields fs).get ⟨i, h⟩).1.skipFieldIfEmpty = true →
        (i ∈ mapRun (nonSkipFields fs) 0 ↔
          ((nonSkipFields fs).get ⟨i, h⟩).2.isEmpty = false)) ∧
    (∀ i, (h : i < (nonSkipFields fs).length) →
      ((nonSkipFields fs).get ⟨i, h⟩).1.skipFieldIfEmpty = false →
      ((nonSkipFields fs).get ⟨i, h⟩).1.skipFieldIfNone = true →
        (i ∈ mapRun (nonSkipFields fs) 0 ↔
          ((nonSkipFields fs).get ⟨i, h⟩).2.isNone = false)) := by
  refine ⟨?_, ?_, ?_, ?_, ?_, ?_, ?_⟩
  · intro p hp
    have hget := List.mem_enum_iff_getElem?.mp hp
    have hmem := List.getElem?_mem hget
    have := List.mem_filter.mp hmem
    simpa using this.2
  · unfold mapArms
    rw [List.enum_map_fst]
  · unfold mapArms
    rw [List.enum_map_snd]
  · intro s
    exact matchState_enum (nonSkipFields fs) s
  · exact fieldLenExpr_of_skip
  · intro i h hEmpty
    rw [mem_mapRun_zero (nonSkipFields fs) i h,
      condSkipFires_of_ifEmpty ((nonSkipFields fs).get ⟨i, h⟩) hEmpty]
  · intro i h hEmpty hNone
    rw [mem_mapRun_zero (nonSkipFields fs) i h,
      condSkipFires_of_ifNone ((nonSkipFields fs).get ⟨i, h⟩) hEmpty hNone]

theorem c2_witness :
    (0 < (nonSkipFields [(⟨"c", false, true, false⟩, ⟨true, false⟩)]).length) ∧
    (((nonSkipFields [(⟨"c", false, true, false⟩, ⟨true, false⟩)]).get
        ⟨0, by decide⟩).1.skipFieldIfEmpty = true) ∧
    (0 ∈ mapRun (nonSkipFields [(⟨"c", false, true, false⟩, ⟨true, false⟩)]) 0 ↔
      ((nonSkipFields [(⟨"c", false, true, false⟩, ⟨true, false⟩)]).get
        ⟨0, by decide⟩).2.isEmpty = false) :=
  ⟨by decide, by decide,
   (c2_map_arms_skip_semantics [(⟨"c", false, true, false⟩, ⟨true, false⟩)]).2.2.2.2.2.1
     0 (by decide) (by decide)⟩

/-- C3: the sequence visitor emitted for a tuple product or tuple variant
with `n` fields: a `visit` call with `state == i` for `0 ≤ i < n`
increments the state and invokes `serialize_tuple_struct_elt` on field `i`
(modelled by `ser i`), wrapping success as present (`Ok(Some(_))`); a call
with `state ≥ n` returns absent (`Ok(None)`); an element error propagates
with the state already advanced. -/
theorem c3_seq_visitor_step (n : Nat) (ser : Nat → Except Error Unit) :
    (∀ i, i < n → ∀ v, ser i = Except.ok v →
      seqVisit n ser i = (i + 1, Except.ok (some v))) ∧
    (∀ s, n ≤ s → seqVisit n ser s = (s, Except.ok none)) ∧
    (∀ i, i < n → ∀ e, ser i = Except.error e →
      seqVisit n ser i = (i + 1, Except.error e)) := by
  refine ⟨?_, ?_, ?_⟩
  · intro i hi v hv
    unfold seqVisit
    rw [if_pos hi, hv]
  · intro s hs
    unfold seqVisit
    rw [if_neg (by omega)]
  · intro i hi e he
    unfold seqVisit
    rw [if_pos hi, he]

theorem c3_witness :
    (0 < 2) ∧ ((fun _ => Except.ok () : Nat → Except Error Unit) 0 = Except.ok ()) ∧
    seqVisit 2 (fun _ => Except.ok ()) 0 = (1, Except.ok (some ())) ∧
    seqVisit 2 (fun _ => Except.ok ()) 2 = (2, Except.ok none) :=
  ⟨by decide, rfl,
   (c3_seq_visitor_step 2 (fun _ => Except.ok ())).1 0 (by decide) () rfl,
   (c3_seq_visitor_step 2 (fun _ => Except.ok ())).2.1 2 (by decide)⟩

/-- C4: for every sum type, the emitted `match` has one arm per variant in
declaration order, each arm built by `serialize_variant` from the variant
at the same position, and the variant index passed to the
`serialize_*_variant` call of variant `i` is exactly `i`, dense from `0`,
regardless of the variant's shape. -/
theorem c4_variant_indices_dense (ca : ContainerAttrs) (vs : List Variant)
    (arms : List VariantCall)
    (h : serialize_item_enum ca vs = Except.ok (SerBody.enumMatch arms)) :
    arms.length = vs.length ∧
    ∀ i, i < vs.length →
      ∃ c v2, arms[i]? = some c ∧ vs[i]? = some v2 ∧
        serialize_variant ca.serializeName i v2 = Except.ok c ∧ c.index = i := by
  have harms : serialize_variants ca.serializeName 0 vs = Except.ok arms := by
    unfold serialize_item_enum at h
    cases hv : serialize_variants ca.serializeName 0 vs with
    | error e => rw [hv] at h; cases h
    | ok arms2 =>
      rw [hv] at h
      simp only [Except.ok.injEq, SerBody.enumMatch.injEq] at h
      rw [h]
  obtain ⟨hlen, hspec⟩ := serialize_variants_spec ca.serializeName 0 vs arms harms
  refine ⟨hlen, ?_⟩
  intro i hi
  obtain ⟨c, v2, hget, hvget, hser, hidx⟩ := hspec i hi
  exact ⟨c, v2, hget, hvget, by simpa using hser, by omega⟩

theorem c4_witness :
    serialize_item_enum ⟨"E"⟩
        [⟨"A", Except.ok ⟨"A"⟩, VariantData.unit⟩,
         ⟨"B", Except.ok ⟨"B"⟩, VariantData.tuple [⟨Except.ok ⟨"0", false, false, false⟩⟩]⟩,
         ⟨"C", Except.ok ⟨"C"⟩,
           VariantData.struct [⟨Except.ok ⟨"x", false, false, false⟩⟩]⟩] =
      Except.ok (SerBody.enumMatch
        [VariantCall.unitVariant "E" 0 "A",
         VariantCall.newtypeVariant "E" 1 "B",
         VariantCall.structVariant "E" 2 "C" [⟨"x", false, false, false⟩]]) ∧
    ([VariantCall.unitVariant "E" 0 "A",
      VariantCall.newtypeVariant "E" 1 "B",
      VariantCall.structVariant "E" 2 "C" [⟨"x", false, false, false⟩]].length =
      [(⟨"A", Except.ok ⟨"A"⟩, VariantData.unit⟩ : Variant),
       ⟨"B", Except.ok ⟨"B"⟩, VariantData.tuple [⟨Except.ok ⟨"0", false, false, false⟩⟩]⟩,
       ⟨"C", Except.ok ⟨"C"⟩,
         VariantData.struct [⟨Except.ok ⟨"x", false, false, false⟩⟩]⟩].length ∧
     ∀ i, i < [(⟨"A", Except.ok ⟨"A"⟩, VariantData.unit⟩ : Variant),
       ⟨"B", Except.ok ⟨"B"⟩, VariantData.tuple [⟨Except.ok ⟨"0", false, false, false⟩⟩]⟩,
       ⟨"C", Except.ok ⟨"C"⟩,
         VariantData.struct [⟨Except.ok ⟨"x", false, false, false⟩⟩]⟩].length →
      ∃ c v2,
        [VariantCall.unitVariant "E" 0 "A",
         VariantCall.newtypeVariant "E" 1 "B",
         VariantCall.structVariant "E" 2 "C" [⟨"x", false, false, false⟩]][i]? = some c ∧
        [(⟨"A", Except.ok ⟨"A"⟩, VariantData.unit⟩ : Variant),
         ⟨"B", Except.ok ⟨"B"⟩, VariantData.tuple [⟨Except.ok ⟨"0", false, false, false⟩⟩]⟩,
         ⟨"C", Except.ok ⟨"C"⟩,
           VariantData.struct [⟨Except.ok ⟨"x", false, false, false⟩⟩]⟩][i]? = some v2 ∧
        serialize_variant "E" i v2 = Except.ok c ∧ c.index = i) :=
  ⟨rfl,
   c4_variant_indices_dense ⟨"E"⟩
     [⟨"A", Except.ok ⟨"A"⟩, VariantData.unit⟩,
      ⟨"B", Except.ok ⟨"B"⟩, VariantData.tuple [⟨Except.ok ⟨"0", false, false, false⟩⟩]⟩,
      ⟨"C", Except.ok ⟨"C"⟩,
        VariantData.struct [⟨Except.ok ⟨"x", false, false, false⟩⟩]⟩]
     [VariantCall.unitVariant "E" 0 "A",
      VariantCall.newtypeVariant "E" 1 "B",
      VariantCall.structVariant "E" 2 "C" [⟨"x", false, false, false⟩]]
     rfl⟩

/-- C5: for a unit product the emitted serialize body is exactly the single
call `serializer.serialize_unit_struct(wire_name)`, and for a newtype
product (one positional field) exactly the single call
`serializer.serialize_newtype_struct(wire_name, &self.0)`; neither body
constructs a visitor. -/
theorem c5_unit_newtype_direct_call (ca : ContainerAttrs) (f : StructField) :
    serialize_item_struct ca VariantData.unit =
      Except.ok (SerBody.unitStruct ca.serializeName) ∧
    serialize_item_struct ca (VariantData.tuple [f]) =
      Except.ok (SerBody.newtypeStruct ca.serializeName) ∧
    SerBody.hasVisitor (SerBody.unitStruct ca.serializeName) = false ∧
    SerBody.hasVisitor (SerBody.newtypeStruct ca.serializeName) = false :=
  ⟨rfl, rfl, rfl, rfl⟩

/-- C6: the emitted impl's generics are the declaring type's generics with
a `Serialize` bound added to every type parameter, lifetimes and
where-clause preserved verbatim; the visitor's generics extend the impl
generics with the fresh lifetime `__a` as a parameter and as a bound on
every type parameter; the visitor's use-site generics keep exactly the
parameters with all bounds stripped.  (The aster builder operations are
modelled from the spec; this theorem checks the composition performed by
`expand_derive_serialize` and the visitor generators.) -/
theorem c6_generics_plumbing (g : Generics) :
    (implGenerics g).lifetimes = g.lifetimes ∧
    (implGenerics g).whereClause = g.whereClause ∧
    (implGenerics g).tyParams =
      g.tyParams.map (fun tp => ⟨tp.ident, tp.bounds ++ [serializeBound]⟩) ∧
    (visitorImplGenerics (implGenerics g)).lifetimes =
      (implGenerics g).lifetimes ++ [⟨"__a", []⟩] ∧
    (visitorImplGenerics (implGenerics g)).whereClause =
      (implGenerics g).whereClause ∧
    (visitorImplGenerics (implGenerics g)).tyParams =
      (implGenerics g).tyParams.map
        (fun tp => ⟨tp.ident, tp.bounds ++ [Bound.lifetimeBound "__a"]⟩) ∧
    (visitorUseGenerics (implGenerics g)).tyParams =
      (implGenerics g).tyParams.map (fun tp => ⟨tp.ident, []⟩) ∧
    (visitorUseGenerics (implGenerics g)).lifetimes.map LifetimeDef.ident =
      (visitorImplGenerics (implGenerics g)).lifetimes.map LifetimeDef.ident := by
  refine ⟨rfl, rfl, rfl, rfl, rfl, ?_, ?_, ?_⟩
  · simp [visitorImplGenerics, add_lifetime_bound, lifetime_name, implGenerics,
      add_ty_param_bound]
  · simp [visitorUseGenerics, strip_bounds, visitorImplGenerics, add_lifetime_bound,
      lifetime_name, implGenerics, add_ty_param_bound]
  · simp [visitorUseGenerics, strip_bounds, visitorImplGenerics, add_lifetime_bound,
      lifetime_name, implGenerics, add_ty_param_bound]

/-- C7: for every input, the driver's emission callback is invoked exactly
once when generation succeeds and zero times when any error occurs (the
annotatable is not a struct or enum item, or an attribute error arises
anywhere during body construction); no partial artifact is ever pushed. -/
theorem c7_push_once_or_nothing (a : Annotatable) :
    (expand_derive_serialize a).length ≤ 1 ∧
    ((expand_derive_serialize a).length = 1 ↔ genOk a = true) := by
  cases a with
  | nonItem =>
    exact ⟨by simp [expand_derive_serialize], by simp [expand_derive_serialize, genOk]⟩
  | item it =>
    cases hn : it.node with
    | Other =>
      have h1 : expand_derive_serialize (Annotatable.item it) = [] := by
        simp [expand_derive_serialize, hn, itemGenerics]
      have h2 : attrsOk it = false := by
        simp [attrsOk, hn]
      rw [h1]
      simp [genOk, h2]
    | Struct vd g =>
      cases hb : serialize_body it with
      | error e =>
        have h1 : expand_derive_serialize (Annotatable.item it) = [] := by
          simp [expand_derive_serialize, hn, itemGenerics, hb]
        have h2 : attrsOk it = false := by
          have hh := serialize_body_isOk it
          rw [hb] at hh
          rw [← hh]
          rfl
        rw [h1]
        simp [genOk, h2]
      | ok body =>
        have h1 : expand_derive_serialize (Annotatable.item it) =
            [{ ident := it.ident, generics := implGenerics g, body := body }] := by
          simp [expand_derive_serialize, hn, itemGenerics, hb]
        have h2 : attrsOk it = true := by
          have hh := serialize_body_isOk it
          rw [hb] at hh
          rw [← hh]
          rfl
        rw [h1]
        simp [genOk, h2]
    | Enum variants g =>
      cases hb : serialize_body it with
      | error e =>
        have h1 : expand_derive_serialize (Annotatable.item it) = [] := by
          simp [expand_derive_serialize, hn, itemGenerics, hb]
        have h2 : attrsOk it = false := by
          have hh := serialize_body_isOk it
          rw [hb] at hh
          rw [← hh]
          rfl
        rw [h1]
        simp [genOk, h2]
      | ok body =>
        have h1 : expand_derive_serialize (Annotatable.item it) =
            [{ ident := it.ident, generics := implGenerics g, body := body }] := by
          simp [expand_derive_serialize, hn, itemGenerics, hb]
        have h2 : attrsOk it = true := by
          have hh := serialize_body_isOk it
          rw [hb] at hh
          rw [← hh]
          rfl
        rw [h1]
        simp [genOk, h2]

theorem c7_witness :
    ((expand_derive_serialize (Annotatable.item
        ⟨"U", Except.ok ⟨"U"⟩, ItemKind.Struct VariantData.unit ⟨[], [], []⟩⟩)).length ≤ 1 ∧
      ((expand_derive_serialize (Annotatable.item
          ⟨"U", Except.ok ⟨"U"⟩, ItemKind.Struct VariantData.unit ⟨[], [], []⟩⟩)).length = 1 ↔
        genOk (Annotatable.item
          ⟨"U", Except.ok ⟨"U"⟩, ItemKind.Struct VariantData.unit ⟨[], [], []⟩⟩) = true)) ∧
    ((expand_derive_serialize (Annotatable.item
        ⟨"V", Except.error Error.reported, ItemKind.Struct VariantData.unit ⟨[], [], []⟩⟩)).length ≤ 1 ∧
      ((expand_derive_serialize (Annotatable.item
          ⟨"V", Except.error Error.reported,
            ItemKind.Struct VariantData.unit ⟨[], [], []⟩⟩)).length = 1 ↔
        genOk (Annotatable.item
          ⟨"V", Except.error Error.reported,
            ItemKind.Struct VariantData.unit ⟨[], [], []⟩⟩) = true)) :=
  ⟨c7_push_once_or_nothing (Annotatable.item
      ⟨"U", Except.ok ⟨"U"⟩, ItemKind.Struct VariantData.unit ⟨[], [], []⟩⟩),
   c7_push_once_or_nothing (Annotatable.item
      ⟨"V", Except.error Error.reported, ItemKind.Struct VariantData.unit ⟨[], [], []⟩⟩)⟩

/-- C8: for every emitted visitor (sequence or map), once a `visit` call
returns end-of-sequence (`Ok(None)`), every subsequent `visit` call also
returns end-of-sequence with the same state, and the state cursor is never
repositioned: no `visit` call ever decreases it. -/
theorem c8_absent_is_stable :
    (∀ n (ser : Nat → Except Error Unit) s, s ≤ (seqVisit n ser s).1) ∧
    (∀ n (ser : Nat → Except Error Unit) s s2,
      seqVisit n ser s = (s2, Except.ok none) →
        seqVisit n ser s2 = (s2, Except.ok none)) ∧
    (∀ (arms : List FieldRt) (ser : Nat → Except Error Unit) s,
      s ≤ (mapVisit arms ser s).1) ∧
    (∀ (arms : List FieldRt) (ser : Nat → Except Error Unit) s s2,
      mapVisit arms ser s = (s2, Except.ok none) →
        mapVisit arms ser s2 = (s2, Except.ok none)) := by
  refine ⟨?_, ?_, ?_, ?_⟩
  · exact seqVisit_state_le
  · intro n ser s s2 h
    obtain ⟨rfl, hge⟩ := seqVisit_ok_none n ser s s2 h
    exact h
  · intro arms ser s
    exact mapVisitAux_state_le ser (arms.drop s) s
  · intro arms ser s s2 h
    have hend := mapVisitAux_ok_none_state ser (arms.drop s) s s2 h
    have hlen : (arms.drop s).length = arms.length - s := List.length_drop s arms
    have hge : arms.length ≤ s2 := by omega
    exact mapVisit_stop arms ser s2 hge

theorem c8_witness :
    mapVisit [(⟨"c", false, true, false⟩, ⟨true, false⟩)]
        (fun _ => Except.ok ()) 0 = (1, Except.ok none) ∧
    mapVisit [(⟨"c", false, true, false⟩, ⟨true, false⟩)]
        (fun _ => Except.ok ()) 1 = (1, Except.ok none) ∧
    seqVisit 2 (fun _ => Except.ok ()) 2 = (2, Except.ok none) :=
  ⟨rfl,
   c8_absent_is_stable.2.2.2 [(⟨"c", false, true, false⟩, ⟨true, false⟩)]
     (fun _ => Except.ok ()) 0 1 rfl,
   c8_absent_is_stable.2.1 2 (fun _ => Except.ok ()) 2 2 rfl⟩

/-- C9: for a unit or newtype product, field-level attributes are never
consulted during emission: the single field of a newtype product (whatever
its attributes, even unparseable ones) has no effect on the emitted body,
which is always the `serialize_newtype_struct` call on `&self.0`. -/
theorem c9_newtype_ignores_field_attrs (ca : ContainerAttrs) (f f2 : StructField) :
    serialize_item_struct ca (VariantData.tuple [f]) =
      Except.ok (SerBody.newtypeStruct ca.serializeName) ∧
    serialize_item_struct ca (VariantData.tuple [f]) =
      serialize_item_struct ca (VariantData.tuple [f2]) ∧
    serialize_item_struct ca VariantData.unit =
      Except.ok (SerBody.unitStruct ca.serializeName) :=
  ⟨rfl, rfl, rfl⟩

/-- C10: for a sum type with zero variants, the generator reports no error
and still emits a complete impl whose serialize body is a match expression
with no arms; the emission callback is invoked exactly once. -/
theorem c10_empty_enum_emits_empty_match (name : String) (ca : ContainerAttrs)
    (g : Generics) :
    serialize_body ⟨name, Except.ok ca, ItemKind.Enum [] g⟩ =
      Except.ok (SerBody.enumMatch []) ∧
    expand_derive_serialize (Annotatable.item ⟨name, Except.ok ca, ItemKind.Enum [] g⟩) =
      [{ ident := name, generics := implGenerics g, body := SerBody.enumMatch [] }] :=
  ⟨rfl, rfl⟩

end SerdeSer
